import Mathlib

/-!
Verification of the matf64 library (dense row-major `[][]float64` matrices).

The Go value type `float64` is idealized as `ℚ` (exact rational arithmetic),
so that every operation is an executable Lean function. Claims whose content
is IEEE-754 rounding itself are not settled against this idealization.
A Go panic is modelled explicitly: operations that can panic return a `Bool`
panic flag (together with the final state of the slice they mutate in place)
or an `Except`/`Option` value; `none`/`true`/`.error` means the Go code
panics at that point.
-/

namespace Matf64

/-- A Grid is a `[][]float64`: a list of rows. -/
abbrev Grid := List (List ℚ)

/-- A Vec is a `[]float64`. -/
abbrev Vec := List ℚ

/-- Rect m r c: the grid has exactly `r` rows, each of length `c` (non-jagged). -/
def Rect (m : Grid) (r c : Nat) : Prop :=
  m.length = r ∧ ∀ row ∈ m, row.length = c

instance (m : Grid) (r c : Nat) : Decidable (Rect m r c) := by
  unfold Rect; infer_instance

/-- Element access with default 0, used to state theorems about cell contents. -/
def getE (g : Grid) (i j : Nat) : ℚ :=
  (g.getD i []).getD j 0

/-! ### Element-wise arithmetic kernels (src/arithmatic.go)

Each of the twelve kernels `{Add,Sub,Mult,Div}{Scalar,Vec,Mat}` is the same
double loop instantiated at one combining operator, so the loops are embedded
once, parametrized by `op`. The result pairs the final state of the left
operand (which Go mutates in place) with a `Bool` that is `true` exactly when
the Go loop panics with an index-out-of-range error; on a panic, elements
already written before the panic are kept in the returned state, and the
remaining elements are unchanged. -/

/-- Inner loop of the vector kernels: `for j := range v { m[i][j] = op(m[i][j], v[j]) }`.
Walks the row and the vector in lockstep; if the vector is longer than the row,
the access `m[i][j]` at `j = len(row)` panics after the whole row was combined. -/
def vecRowGo (op : ℚ → ℚ → ℚ) : List ℚ → List ℚ → List ℚ × Bool
  | row, [] => (row, false)
  | [], _ :: _ => ([], true)
  | a :: row, b :: v =>
    let p := vecRowGo op row v
    (op a b :: p.1, p.2)

/-- Outer loop of the vector kernels: `for i := range m { ... }`. A panic in
one row aborts the call, leaving the later rows untouched. -/
def vecKernelGo (op : ℚ → ℚ → ℚ) : Grid → Vec → Grid × Bool
  | [], _ => ([], false)
  | row :: rest, v =>
    let p := vecRowGo op row v
    if p.2 then (p.1 :: rest, true)
    else
      let q := vecKernelGo op rest v
      (p.1 :: q.1, q.2)

/-- Scalar kernels `for i { for j { m[i][j] = op(m[i][j], v) } }`; never panic. -/
def scalarKernelGo (op : ℚ → ℚ → ℚ) (m : Grid) (v : ℚ) : Grid :=
  m.map (fun row => row.map (fun a => op a v))

/-- Inner loop of the matrix kernels: `for j := range m[i] { m[i][j] = op(m[i][j], v[i][j]) }`.
If the operand row `vrow` is shorter than `row`, the read `v[i][j]` panics at
`j = len(vrow)`, with the first `len(vrow)` elements already combined. -/
def matRowGo (op : ℚ → ℚ → ℚ) : List ℚ → List ℚ → List ℚ × Bool
  | [], _ => ([], false)
  | row, [] => (row, true)
  | a :: row, b :: vrow =>
    let p := matRowGo op row vrow
    (op a b :: p.1, p.2)

/-- Outer loop of the matrix kernels. A missing operand row `v[i]` only panics
when the left row is non-empty (the loop body `m[i][j] = op(m[i][j], v[i][j])`
is what evaluates `v[i]`). -/
def matKernelGo (op : ℚ → ℚ → ℚ) : Grid → Grid → Grid × Bool
  | [], _ => ([], false)
  | row :: rest, [] =>
    let p := matRowGo op row []
    if p.2 then (p.1 :: rest, true)
    else
      let q := matKernelGo op rest []
      (p.1 :: q.1, q.2)
  | row :: rest, vrow :: vrest =>
    let p := matRowGo op row vrow
    if p.2 then (p.1 :: rest, true)
    else
      let q := matKernelGo op rest vrest
      (p.1 :: q.1, q.2)

/-- MultScalar multiplies all elements of a `[][]float64` by a `float64` in place. -/
def MultScalar (m : Grid) (v : ℚ) : Grid := scalarKernelGo (fun a b => a * b) m v

/-- MultVec multiplies the elements of each row of a `[][]float64` by a `[]float64`. -/
def MultVec (m : Grid) (v : Vec) : Grid × Bool := vecKernelGo (fun a b => a * b) m v

/-- MultMat multiplies element-wise a `[][]float64` by another. -/
def MultMat (m : Grid) (v : Grid) : Grid × Bool := matKernelGo (fun a b => a * b) m v

/-- AddScalar increases all elements of a `[][]float64` by a `float64` in place. -/
def AddScalar (m : Grid) (v : ℚ) : Grid := scalarKernelGo (fun a b => a + b) m v

/-- AddVec increases the elements of each row of a `[][]float64` by a `[]float64`. -/
def AddVec (m : Grid) (v : Vec) : Grid × Bool := vecKernelGo (fun a b => a + b) m v

/-- AddMat is an element-wise addition of a `[][]float64` by another. -/
def AddMat (m : Grid) (v : Grid) : Grid × Bool := matKernelGo (fun a b => a + b) m v

/-- SubScalar decreases all elements of a `[][]float64` by a `float64` in place. -/
def SubScalar (m : Grid) (v : ℚ) : Grid := scalarKernelGo (fun a b => a - b) m v

/-- SubVec decreases the elements of each row of a `[][]float64` by a `[]float64`. -/
def SubVec (m : Grid) (v : Vec) : Grid × Bool := vecKernelGo (fun a b => a - b) m v

/-- SubMat is an element-wise subtraction of a `[][]float64` by another. -/
def SubMat (m : Grid) (v : Grid) : Grid × Bool := matKernelGo (fun a b => a - b) m v

/-- DivScalar divides all elements of a `[][]float64` by a `float64` in place.
Rational division stands in for float division; no claim inspects the value
of a division by zero inside the kernels (Go would produce `Inf`/`NaN`). -/
def DivScalar (m : Grid) (v : ℚ) : Grid := scalarKernelGo (fun a b => a / b) m v

/-- DivVec divides the elements of each row of a `[][]float64` by a `[]float64`. -/
def DivVec (m : Grid) (v : Vec) : Grid × Bool := vecKernelGo (fun a b => a / b) m v

/-- DivMat is an element-wise division of a `[][]float64` by another. -/
def DivMat (m : Grid) (v : Grid) : Grid × Bool := matKernelGo (fun a b => a / b) m v

/-- The dynamic type of the second argument (`val interface{}`) of the four
broadcasting dispatchers: a `float64`, a `[]float64`, a `[][]float64`, or any
other type (carried as its printed name `%T`), which hits the `default` branch. -/
inductive Operand where
  | scalar (v : ℚ)
  | vec (v : Vec)
  | mat (v : Grid)
  | other (ty : String)
deriving DecidableEq

/-- Add dispatches on the dynamic type of `val`; the `default` branch panics
(with a message naming `Add()` and the received type) without touching `m`. -/
def Add (m : Grid) : Operand → Grid × Bool
  | .scalar v => (AddScalar m v, false)
  | .vec v => AddVec m v
  | .mat v => AddMat m v
  | .other _ => (m, true)

/-- Sub dispatches on the dynamic type of `val`, like `Add`. -/
def Sub (m : Grid) : Operand → Grid × Bool
  | .scalar v => (SubScalar m v, false)
  | .vec v => SubVec m v
  | .mat v => SubMat m v
  | .other _ => (m, true)

/-- Mult dispatches on the dynamic type of `val`, like `Add`. -/
def Mult (m : Grid) : Operand → Grid × Bool
  | .scalar v => (MultScalar m v, false)
  | .vec v => MultVec m v
  | .mat v => MultMat m v
  | .other _ => (m, true)

/-- Div dispatches on the dynamic type of `val`, like `Add`. -/
def Div (m : Grid) : Operand → Grid × Bool
  | .scalar v => (DivScalar m v, false)
  | .vec v => DivVec m v
  | .mat v => DivMat m v
  | .other _ => (m, true)

/-! ### Axis-aware reductions Sum, Prod, Avg

The three reductions take variadic trailing `int` arguments (`args ...int`),
modelled as a `List Int`. Panics are modelled as `Except` errors:
`badArity`/`badAxis` carry the operation name and the offending value exactly
as the `fmt.Sprintf` panic messages do; `oob` is Go's index-out-of-range
panic from an invalid row/column index. -/

/-- Panic conditions of the reductions. -/
inductive MatErr where
  | badArity (op : String) (got : Nat)
  | badAxis (op : String) (got : Int)
  | oob
deriving DecidableEq

/-- Row selection shared by the reductions: `m[x]` when `x >= 0`, otherwise
`m[len(m)+x]`; an index outside `[0, len(m))` panics. -/
def getRow (m : Grid) (x : Int) : Option (List ℚ) :=
  let i : Int := if 0 ≤ x then x else (m.length : Int) + x
  if h : 0 ≤ i ∧ i.toNat < m.length then some (m.get ⟨i.toNat, h.2⟩) else none

/-- Indexing a row by a Go `int`: panics (`none`) outside `[0, len(row))`. -/
def getEntryI (row : List ℚ) (j : Int) : Option ℚ :=
  if h : 0 ≤ j ∧ j.toNat < row.length then some (row.get ⟨j.toNat, h.2⟩) else none

/-- The column offset used inside the per-row loop: `x` when `x >= 0`,
otherwise `len(m[0]) + x`. Go only evaluates `m[0]` when the loop body runs,
i.e. when `m` is non-empty; `headD` is consulted exactly in that case. -/
def colIdx (m : Grid) (x : Int) : Int :=
  if 0 ≤ x then x else ((m.headD []).length : Int) + x

/-- Column traversal shared by the reductions: the elements `m[i][colIdx]`
read row by row; the first out-of-range read panics. -/
def getCol (m : Grid) (x : Int) : Option (List ℚ) :=
  m.mapM (fun row => getEntryI row (colIdx m x))

/-- Sum returns the sum of all elements (no trailing arguments), or of the
selected row (`args = [0, x]`) or column (`args = [1, x]`); any other axis or
arity panics with a message naming `Sum()` and the offending value. -/
def Sum (m : Grid) (args : List Int) : Except MatErr ℚ :=
  match args with
  | [] => .ok (m.foldl (fun acc row => row.foldl (fun s a => s + a) acc) 0)
  | [a, x] =>
    if a = 0 then
      match getRow m x with
      | some row => .ok (row.foldl (fun s v => s + v) 0)
      | none => .error .oob
    else if a = 1 then
      match getCol m x with
      | some col => .ok (col.foldl (fun s v => s + v) 0)
      | none => .error .oob
    else .error (.badAxis "Sum()" a)
  | l => .error (.badArity "Sum()" l.length)

/-- Prod is `Sum` with accumulator `1.0` and multiplication. -/
def Prod (m : Grid) (args : List Int) : Except MatErr ℚ :=
  match args with
  | [] => .ok (m.foldl (fun acc row => row.foldl (fun s a => s * a) acc) 1)
  | [a, x] =>
    if a = 0 then
      match getRow m x with
      | some row => .ok (row.foldl (fun s v => s * v) 1)
      | none => .error .oob
    else if a = 1 then
      match getCol m x with
      | some col => .ok (col.foldl (fun s v => s * v) 1)
      | none => .error .oob
    else .error (.badAxis "Prod()" a)
  | l => .error (.badArity "Prod()" l.length)

/-- The final statement `avg = sum / float64(numItems)` of `Avg`. When
`numItems` is zero nothing was summed, so Go computes `0.0 / 0.0 = NaN`
without panicking; `none` models that NaN result. -/
def safeDiv (s : ℚ) (n : Nat) : Option ℚ :=
  if n = 0 then none else some (s / (n : ℚ))

/-- Avg accumulates like `Sum` while counting elements (`numItems`), then
returns `sum / numItems`. Row selection counts the selected row's length,
column selection counts `len(m)`. -/
def Avg (m : Grid) (args : List Int) : Except MatErr (Option ℚ) :=
  match args with
  | [] =>
    let sum := m.foldl (fun acc row => row.foldl (fun s a => s + a) acc) 0
    let numItems := m.foldl (fun acc row => acc + row.length) 0
    .ok (safeDiv sum numItems)
  | [a, x] =>
    if a = 0 then
      match getRow m x with
      | some row => .ok (safeDiv (row.foldl (fun s v => s + v) 0) row.length)
      | none => .error .oob
    else if a = 1 then
      match getCol m x with
      | some col => .ok (safeDiv (col.foldl (fun s v => s + v) 0) m.length)
      | none => .error .oob
    else .error (.badAxis "Avg()" a)
  | l => .error (.badArity "Avg()" l.length)

/-! ### Transpose -/

/-- New models the two-argument form `New(r, c)`: a zero-filled r×c grid. -/
def New (r c : Nat) : Grid :=
  List.replicate r (List.replicate c 0)

/-- The inner loop of `T` for a fixed source row `i`: writes `n[j][i] = row[j]`
for `j = 0, 1, ...`, i.e. walks the rows of `n` and the entries of `row` in
lockstep; `n[j]` or `n[j][i]` out of range panics. -/
def setCol (i : Nat) : Grid → List ℚ → Option Grid
  | n, [] => some n
  | [], _ :: _ => none
  | nrow :: nrest, x :: xs =>
    if i < nrow.length then
      (setCol i nrest xs).map (fun rest' => nrow.set i x :: rest')
    else none

/-- The outer loop of `T`: for each source row (at index `i`), write it as
column `i` of the accumulator grid `n`. -/
def tLoop : Grid → Nat → Grid → Option Grid
  | [], _, n => some n
  | row :: rest, i, n =>
    match setCol i n row with
    | some n' => tLoop rest (i + 1) n'
    | none => none

/-- T builds `n := New(len(m[0]), len(m))` and sets `n[j][i] = m[i][j]`.
Evaluating `len(m[0])` on an empty grid panics. -/
def T (m : Grid) : Option Grid :=
  match m with
  | [] => none
  | m0 :: _ => tLoop m 0 (New m0.length m.length)

/-! ### Matrix product -/

/-- The innermost loop of `Dot`: `for k := range m[i] { res[i][j] += m[i][k]*n[k][j] }`,
walking `mi` and the rows of `n` in lockstep; `n[k]` missing or `n[k][j]` out
of range panics. -/
def dotCell : List ℚ → Grid → Nat → ℚ → Option ℚ
  | [], _, _, acc => some acc
  | _ :: _, [], _, _ => none
  | a :: mi, nrow :: ntail, j, acc =>
    match getEntryI nrow (j : Int) with
    | some b => dotCell mi ntail j (acc + a * b)
    | none => none

/-- The middle loop of `Dot`: cells `res[i][j]` of one result row, for
`j = 0, ..., c-1` (each cell starts from the zero that `New` put there). -/
def dotRowAux (mi : List ℚ) (n : Grid) : List Nat → Option (List ℚ)
  | [] => some []
  | j :: js =>
    match dotCell mi n j 0 with
    | some x => (dotRowAux mi n js).map (fun rest => x :: rest)
    | none => none

/-- The outer loop of `Dot`: one result row per row of `m`. -/
def dotRows (n : Grid) (c : Nat) : Grid → Option Grid
  | [] => some []
  | mi :: rest =>
    match dotRowAux mi n (List.range c) with
    | some row => (dotRows n c rest).map (fun tail => row :: tail)
    | none => none

/-- Dot allocates `res := New(len(m), len(n[0]))` (so an empty `n` panics on
`n[0]`) and accumulates `res[i][j] += m[i][k] * n[k][j]`. -/
def Dot (m n : Grid) : Option Grid :=
  match n with
  | [] => none
  | n0 :: _ => dotRows n n0.length m

/-! ### Custom reducer factory (NewReducer)

The Go closure returned by `NewReducer` captures the parameter variable
`initialValue` and calls `f(&initialValue, &m[i][j])` for every element, then
returns `initialValue`. The captured variable is mutated through the pointer
and the mutation persists into the next invocation of the same closure, so a
closure call is a state transition. `Reducer` is the closure's state (the
current value of the captured variable plus the combiner), and `callReducer`
is one invocation, returning the result and the successor state. The
`BinaryFn` combiner `func(i, j *float64)` that writes its result through `i`
is modelled as the pure update `acc ↦ f acc x`. -/

structure Reducer where
  acc : ℚ
  comb : ℚ → ℚ → ℚ

/-- NewReducer closes over the initial value and the combiner. -/
def NewReducer (initialValue : ℚ) (f : ℚ → ℚ → ℚ) : Reducer :=
  ⟨initialValue, f⟩

/-- One invocation of the closure returned by `NewReducer`: fold the grid in
row-major order starting from the captured variable's current value, return
the result, and leave it stored in the captured variable. -/
def callReducer (r : Reducer) (m : Grid) : ℚ × Reducer :=
  let a := m.foldl (fun acc row => row.foldl r.comb acc) r.acc
  (a, ⟨a, r.comb⟩)

/-! ### Lemmas about the vector kernels -/

theorem vecRowGo_ok (op : ℚ → ℚ → ℚ) :
    ∀ (v row : List ℚ), v.length ≤ row.length →
      vecRowGo op row v = (List.zipWith op row v ++ row.drop v.length, false)
  | [], row, _ => by simp [vecRowGo.eq_def]
  | b :: vs, [], h => by simp at h
  | b :: vs, a :: rs, h => by
    have ih := vecRowGo_ok op vs rs (by simpa using h)
    simp [vecRowGo, ih]

theorem vecRowGo_panic (op : ℚ → ℚ → ℚ) :
    ∀ (v row : List ℚ), row.length < v.length →
      vecRowGo op row v = (List.zipWith op row v, true)
  | [], row, h => by simp at h
  | b :: vs, [], _ => by simp [vecRowGo]
  | b :: vs, a :: rs, h => by
    have ih := vecRowGo_panic op vs rs (by simpa using h)
    simp [vecRowGo, ih]

theorem vecKernelGo_ok (op : ℚ → ℚ → ℚ) :
    ∀ (m : Grid) (v : Vec), (∀ row ∈ m, v.length ≤ row.length) →
      vecKernelGo op m v =
        (m.map (fun row => List.zipWith op row v ++ row.drop v.length), false)
  | [], v, _ => by simp [vecKernelGo]
  | row :: rest, v, h => by
    have h1 : v.length ≤ row.length := h row (by simp)
    have ih := vecKernelGo_ok op rest v (fun r hr => h r (by simp [hr]))
    simp [vecKernelGo, vecRowGo_ok op v row h1, ih]

theorem vecKernelGo_panic_head (op : ℚ → ℚ → ℚ) (row : List ℚ) (rest : Grid) (v : Vec)
    (h : row.length < v.length) :
    vecKernelGo op (row :: rest) v = (List.zipWith op row v :: rest, true) := by
  simp [vecKernelGo, vecRowGo_panic op v row h]

theorem vecRow_getD (op : ℚ → ℚ → ℚ) :
    ∀ (v row : List ℚ), v.length ≤ row.length → ∀ j : Nat,
      (List.zipWith op row v ++ row.drop v.length).getD j 0 =
        if j < v.length then op (row.getD j 0) (v.getD j 0) else row.getD j 0
  | [], row, _, j => by simp
  | b :: vs, [], h, j => by simp at h
  | b :: vs, a :: rs, h, 0 => by simp
  | b :: vs, a :: rs, h, j + 1 => by
    have ih := vecRow_getD op vs rs (by simpa using h) j
    simpa using ih

/-- Core correctness of the four vector kernels on a rectangular grid whose
column count is at least the vector length: no panic, shape preserved, the
first `v.length` columns of every row combined, the rest untouched. -/
theorem vecKernelGo_rect (op : ℚ → ℚ → ℚ) (m : Grid) (r c : Nat) (v : Vec)
    (hm : Rect m r c) (hv : v.length ≤ c) :
    (vecKernelGo op m v).2 = false ∧
    Rect (vecKernelGo op m v).1 r c ∧
    ∀ i j, i < r →
      getE (vecKernelGo op m v).1 i j =
        if j < v.length then op (getE m i j) (v.getD j 0) else getE m i j := by
  obtain ⟨hlen, hrow⟩ := hm
  have hall : ∀ row ∈ m, v.length ≤ row.length := fun row hr => (hrow row hr) ▸ hv
  rw [vecKernelGo_ok op m v hall]
  refine ⟨rfl, ⟨by simpa using hlen, ?_⟩, ?_⟩
  · intro row hr
    simp only [List.mem_map] at hr
    obtain ⟨src, hsrc, rfl⟩ := hr
    have h1 : src.length = c := hrow src hsrc
    simp [h1]
    omega
  · intro i j hi
    have hi' : i < m.length := by omega
    have hib : i < (m.map
        (fun row => List.zipWith op row v ++ row.drop v.length)).length := by
      simpa using hi'
    have hsrc : m[i] ∈ m := List.getElem_mem hi'
    have hle : v.length ≤ m[i].length := hall _ hsrc
    unfold getE
    rw [List.getD_eq_getElem _ _ hib, List.getElem_map, List.getD_eq_getElem _ _ hi',
      vecRow_getD op v m[i] hle j]

/-! ### Lemmas about the matrix kernels -/

theorem Rect.of_getD (g : Grid) (r c : Nat) (hl : g.length = r)
    (h : ∀ a, a < r → (g.getD a []).length = c) : Rect g r c := by
  refine ⟨hl, fun row hrow => ?_⟩
  obtain ⟨a, ha, rfl⟩ := List.getElem_of_mem hrow
  have := h a (by omega)
  rwa [List.getD_eq_getElem _ _ ha] at this

theorem matRowGo_ok (op : ℚ → ℚ → ℚ) :
    ∀ (vrow row : List ℚ), row.length ≤ vrow.length →
      matRowGo op row vrow = (List.zipWith op row vrow, false)
  | vrow, [], _ => by simp [matRowGo.eq_def]
  | [], a :: rs, h => by simp at h
  | b :: vs, a :: rs, h => by
    have ih := matRowGo_ok op vs rs (by simpa using h)
    simp [matRowGo, ih]

theorem matRowGo_panic (op : ℚ → ℚ → ℚ) :
    ∀ (vrow row : List ℚ), vrow.length < row.length →
      matRowGo op row vrow = (List.zipWith op row vrow ++ row.drop vrow.length, true)
  | vrow, [], h => by simp at h
  | [], a :: rs, _ => by simp [matRowGo]
  | b :: vs, a :: rs, h => by
    have ih := matRowGo_panic op vs rs (by simpa using h)
    simp [matRowGo, ih]

theorem zipWithRow_getD (op : ℚ → ℚ → ℚ) :
    ∀ (xs ys : List ℚ) (j : Nat), j < xs.length → j < ys.length →
      (List.zipWith op xs ys).getD j 0 = op (xs.getD j 0) (ys.getD j 0)
  | [], _, j, hj, _ => by simp at hj
  | _ :: _, [], j, _, hj => by simp at hj
  | a :: xs, b :: ys, 0, _, _ => by simp
  | a :: xs, b :: ys, j + 1, hj, hj2 => by
    have ih := zipWithRow_getD op xs ys j (by simpa using hj) (by simpa using hj2)
    simpa using ih

theorem zipWithGrid_getD (op : ℚ → ℚ → ℚ) :
    ∀ (m v : Grid) (i : Nat), i < m.length → i < v.length →
      (List.zipWith (fun row vrow => List.zipWith op row vrow) m v).getD i [] =
        List.zipWith op (m.getD i []) (v.getD i [])
  | [], _, i, hi, _ => by simp at hi
  | _ :: _, [], i, _, hi => by simp at hi
  | row :: m, vrow :: v, 0, _, _ => by simp
  | row :: m, vrow :: v, i + 1, hi, hi2 => by
    have ih := zipWithGrid_getD op m v i (by simpa using hi) (by simpa using hi2)
    simpa using ih

theorem matKernelGo_ok (op : ℚ → ℚ → ℚ) :
    ∀ (m v : Grid), m.length ≤ v.length →
      (∀ i, i < m.length → (m.getD i []).length ≤ (v.getD i []).length) →
      matKernelGo op m v =
        (List.zipWith (fun row vrow => List.zipWith op row vrow) m v, false)
  | [], v, _, _ => by simp [matKernelGo]
  | row :: rest, [], h, _ => by simp at h
  | row :: rest, vrow :: vrest, h, hw => by
    have h0 : row.length ≤ vrow.length := by simpa using hw 0 (by simp)
    have ih := matKernelGo_ok op rest vrest (by simpa using h)
      (fun i hi => by simpa using hw (i + 1) (by simp only [List.length_cons]; omega))
    simp [matKernelGo, matRowGo_ok op vrow row h0, ih]

/-- Core correctness of the four matrix kernels when the right operand covers
the left one (at least as many rows, each at least as long): no panic, the
result keeps the left operand's shape, every cell combined pairwise. -/
theorem matKernelGo_rect (op : ℚ → ℚ → ℚ) (m v : Grid) (r c rv cv : Nat)
    (hm : Rect m r c) (hv : Rect v rv cv) (hr : r ≤ rv) (hc : c ≤ cv) :
    (matKernelGo op m v).2 = false ∧
    Rect (matKernelGo op m v).1 r c ∧
    ∀ i j, i < r → j < c →
      getE (matKernelGo op m v).1 i j = op (getE m i j) (getE v i j) := by
  obtain ⟨hml, hmrow⟩ := hm
  obtain ⟨hvl, hvrow⟩ := hv
  have hmg : ∀ i, i < m.length → (m.getD i []).length = c := by
    intro i hi
    rw [List.getD_eq_getElem _ _ hi]
    exact hmrow _ (List.getElem_mem hi)
  have hvg : ∀ i, i < v.length → (v.getD i []).length = cv := by
    intro i hi
    rw [List.getD_eq_getElem _ _ hi]
    exact hvrow _ (List.getElem_mem hi)
  have hok := matKernelGo_ok op m v (by omega)
    (fun i hi => by rw [hmg i hi, hvg i (by omega)]; exact hc)
  rw [hok]
  refine ⟨rfl, ?_, ?_⟩
  · refine Rect.of_getD _ r c ?_ ?_
    · simp only [List.length_zipWith]
      omega
    · intro a ha
      rw [zipWithGrid_getD op m v a (by omega) (by omega)]
      simp only [List.length_zipWith]
      rw [hmg a (by omega), hvg a (by omega)]
      omega
  · intro i j hi hj
    unfold getE
    rw [zipWithGrid_getD op m v i (by omega) (by omega),
      zipWithRow_getD op _ _ j (by rw [hmg i (by omega)]; omega)
        (by rw [hvg i (by omega)]; omega)]

/-! ### Claim C1 — the reducer factory's closure is not reusable -/

/-- Claim C1: the operation returned by `NewReducer(a, f)` is claimed to start
every invocation from the same initial value `a`, so that two successive
invocations on the same Grid return equal results. The code instead mutates
the captured `initialValue` variable through `f(&initialValue, &m[i][j])`, so
the second invocation folds starting from the first invocation's result: with
`sum := NewReducer(0, +=)` on the grid `[[2,2],[2,2]]` the first call returns
8 (the row-major fold from 0) but the second call returns 16. -/
theorem newReducer_second_call_diverges :
    (callReducer (NewReducer 0 (fun i j => i + j)) [[2, 2], [2, 2]]).1 = 8 ∧
    (callReducer (callReducer (NewReducer 0 (fun i j => i + j)) [[2, 2], [2, 2]]).2
        [[2, 2], [2, 2]]).1 = 16 ∧
    (callReducer (callReducer (NewReducer 0 (fun i j => i + j)) [[2, 2], [2, 2]]).2
        [[2, 2], [2, 2]]).1 ≠
      (callReducer (NewReducer 0 (fun i j => i + j)) [[2, 2], [2, 2]]).1 := by
  refine ⟨?_, ?_, ?_⟩ <;> norm_num [NewReducer, callReducer]

/-! ### Claim C2 — Avg silently returns NaN on an empty Grid or axis -/

/-- Claim C2 counterexample: `Avg` on the empty Grid surfaces no failure: it
evaluates `sum / float64(numItems)` with `numItems = 0`, i.e. Go's
`0.0 / 0.0 = NaN` (modelled as `.ok none`, a normal return, not an
`.error`), so the NaN is returned silently. -/
theorem avg_empty_no_failure :
    Avg ([] : Grid) [] = .ok none :=
  rfl

/-- Claim C2 (amended): on an empty Grid, a zero-length selected row, or a
column selection in a Grid with no rows, `Avg` silently returns the NaN of
`0.0 / 0.0` (modelled `.ok none`) instead of surfacing an explicit failure. -/
theorem avg_empty_is_nan :
    (∀ m : Grid, (∀ row ∈ m, row.length = 0) → Avg m [] = .ok none) ∧
    (∀ (m : Grid) (r i : Nat), Rect m r 0 → i < r → Avg m [0, (i : Int)] = .ok none) ∧
    (∀ x : Int, Avg ([] : Grid) [1, x] = .ok none) := by
  refine ⟨?_, ?_, ?_⟩
  · intro m hm
    have hcount : m.foldl (fun acc row => acc + row.length) 0 = 0 := by
      induction m with
      | nil => rfl
      | cons row rest ih =>
        have h0 : row.length = 0 := hm row (by simp)
        simp only [List.foldl_cons, h0, Nat.add_zero]
        exact ih (fun r hr => hm r (by simp [hr]))
    simp [Avg, hcount, safeDiv]
  · intro m r i hm hi
    obtain ⟨hlen, hrow⟩ := hm
    have hi' : i < m.length := by omega
    have h0 : (0 : Int) ≤ (i : Int) := by positivity
    have hgr : getRow m (i : Int) = some m[i] := by
      simp [getRow, h0, hi']
    have hz : m[i].length = 0 := hrow _ (List.getElem_mem hi')
    simp [Avg, hgr, hz, safeDiv]
  · intro x
    have hc : getCol ([] : Grid) x = some [] := rfl
    simp [Avg, hc, safeDiv]

/-- Witness for the amended Claim C2 theorem at concrete inputs. -/
theorem avg_empty_is_nan_witness :
    Avg [[], []] [] = .ok none ∧ Avg [[], []] [0, (0 : Int)] = .ok none ∧
    Avg ([] : Grid) [1, 5] = .ok none :=
  ⟨avg_empty_is_nan.1 [[], []] (by decide),
    avg_empty_is_nan.2.1 [[], []] 2 0 (by decide) (by decide),
    avg_empty_is_nan.2.2 5⟩

/-! ### Claim C3 — broadcasting performs no dynamic length check -/

/-- Claim C3 counterexample: no broadcasting call checks the operand's
dynamic shape. `Add` of the 1-element vector `[5]` to the 2-column grid
`[[1,2],[3,4]]` signals no error and mutates the grid to `[[6,2],[8,4]]`;
`Add` of the 3-element vector `[5,6,7]` to `[[1,2]]` panics, but only after
the row has been combined; `Add` of the 2x2 grid `[[5,6],[7,8]]` to the
1x2 grid `[[1,2]]` (different dimensions) signals no error and mutates the
grid to `[[6,8]]`; and `Add` of the 1x1 grid `[[5]]` to the 2x2 grid
`[[1,2],[3,4]]` panics only after `m[0][0]` has been combined, leaving
`[[6,2],[3,4]]`. Each case contradicts "signals a shape error and aborts
before any element of m is mutated". -/
theorem add_vector_mismatch_not_aborted :
    (Add [[1, 2], [3, 4]] (.vec [5]) = ([[6, 2], [8, 4]], false) ∧
      ([[6, 2], [8, 4]] : Grid) ≠ [[1, 2], [3, 4]]) ∧
    (Add [[1, 2]] (.vec [5, 6, 7]) = ([[6, 8]], true) ∧
      ([[6, 8]] : Grid) ≠ [[1, 2]]) ∧
    (Add [[1, 2]] (.mat [[5, 6], [7, 8]]) = ([[6, 8]], false) ∧
      ([[6, 8]] : Grid) ≠ [[1, 2]]) ∧
    (Add [[1, 2], [3, 4]] (.mat [[5]]) = ([[6, 2], [3, 4]], true) ∧
      ([[6, 2], [3, 4]] : Grid) ≠ [[1, 2], [3, 4]]) := by
  refine ⟨⟨?_, ?_⟩, ⟨?_, ?_⟩, ⟨?_, ?_⟩, ⟨?_, ?_⟩⟩
  · norm_num [Add, AddVec, vecKernelGo, vecRowGo]
  · intro h
    have := List.head_eq_of_cons_eq h
    norm_num at this
  · norm_num [Add, AddVec, vecKernelGo, vecRowGo]
  · intro h
    have := List.head_eq_of_cons_eq h
    norm_num at this
  · norm_num [Add, AddMat, matKernelGo, matRowGo]
  · intro h
    have := List.head_eq_of_cons_eq h
    norm_num at this
  · norm_num [Add, AddMat, matKernelGo, matRowGo]
  · intro h
    have := List.head_eq_of_cons_eq h
    norm_num at this

/-- Claim C3 (amended): the four broadcasting dispatchers perform no dynamic
shape validation; the only error raised with `m` guaranteed untouched is the
unsupported-operand-type panic of the type-switch default branch. For a
`[]float64` operand: a vector no longer than the column count is combined
silently into the first `len(v)` columns of every row (no error, remaining
columns unchanged); a vector longer than a row triggers an index panic at the
first out-of-range access, after that row has already been combined. For a
`[][]float64` operand: an operand with at least as many rows as `m`, each at
least as long as `m`'s, is combined element-wise silently even when its
dimensions differ from `m`'s (no error, `m`'s shape kept); an operand missing
an element — a shorter first row, or no rows left while the current left row
is non-empty — triggers an index panic at the first missing element, keeping
the cells combined before it. -/
theorem broadcast_no_dynamic_shape_check :
    (∀ (m : Grid) (ty : String),
      Add m (.other ty) = (m, true) ∧ Sub m (.other ty) = (m, true) ∧
      Mult m (.other ty) = (m, true) ∧ Div m (.other ty) = (m, true)) ∧
    (∀ (m : Grid) (r c : Nat) (v : Vec), Rect m r c → v.length ≤ c →
      ((Add m (.vec v)).2 = false ∧ (Sub m (.vec v)).2 = false ∧
        (Mult m (.vec v)).2 = false ∧ (Div m (.vec v)).2 = false) ∧
      ∀ i j, i < r →
        (getE (Add m (.vec v)).1 i j =
          if j < v.length then getE m i j + v.getD j 0 else getE m i j) ∧
        (getE (Sub m (.vec v)).1 i j =
          if j < v.length then getE m i j - v.getD j 0 else getE m i j) ∧
        (getE (Mult m (.vec v)).1 i j =
          if j < v.length then getE m i j * v.getD j 0 else getE m i j) ∧
        (getE (Div m (.vec v)).1 i j =
          if j < v.length then getE m i j / v.getD j 0 else getE m i j)) ∧
    (∀ (row : List ℚ) (rest : Grid) (v : Vec), row.length < v.length →
      Add (row :: rest) (.vec v) =
          (List.zipWith (fun a b => a + b) row v :: rest, true) ∧
      Sub (row :: rest) (.vec v) =
          (List.zipWith (fun a b => a - b) row v :: rest, true) ∧
      Mult (row :: rest) (.vec v) =
          (List.zipWith (fun a b => a * b) row v :: rest, true) ∧
      Div (row :: rest) (.vec v) =
          (List.zipWith (fun a b => a / b) row v :: rest, true)) ∧
    (∀ (m v : Grid) (r c rv cv : Nat), Rect m r c → Rect v rv cv →
      r ≤ rv → c ≤ cv →
      ((Add m (.mat v)).2 = false ∧ (Sub m (.mat v)).2 = false ∧
        (Mult m (.mat v)).2 = false ∧ (Div m (.mat v)).2 = false) ∧
      (Rect (Add m (.mat v)).1 r c ∧ Rect (Sub m (.mat v)).1 r c ∧
        Rect (Mult m (.mat v)).1 r c ∧ Rect (Div m (.mat v)).1 r c) ∧
      ∀ i j, i < r → j < c →
        getE (Add m (.mat v)).1 i j = getE m i j + getE v i j ∧
        getE (Sub m (.mat v)).1 i j = getE m i j - getE v i j ∧
        getE (Mult m (.mat v)).1 i j = getE m i j * getE v i j ∧
        getE (Div m (.mat v)).1 i j = getE m i j / getE v i j) ∧
    ((∀ (row : List ℚ) (rest : Grid) (vrow : List ℚ) (vrest : Grid),
        vrow.length < row.length →
        Add (row :: rest) (.mat (vrow :: vrest)) =
            ((List.zipWith (fun a b => a + b) row vrow ++ row.drop vrow.length)
              :: rest, true) ∧
        Sub (row :: rest) (.mat (vrow :: vrest)) =
            ((List.zipWith (fun a b => a - b) row vrow ++ row.drop vrow.length)
              :: rest, true) ∧
        Mult (row :: rest) (.mat (vrow :: vrest)) =
            ((List.zipWith (fun a b => a * b) row vrow ++ row.drop vrow.length)
              :: rest, true) ∧
        Div (row :: rest) (.mat (vrow :: vrest)) =
            ((List.zipWith (fun a b => a / b) row vrow ++ row.drop vrow.length)
              :: rest, true)) ∧
      (∀ (a : ℚ) (row : List ℚ) (rest : Grid),
        Add ((a :: row) :: rest) (.mat []) = ((a :: row) :: rest, true) ∧
        Sub ((a :: row) :: rest) (.mat []) = ((a :: row) :: rest, true) ∧
        Mult ((a :: row) :: rest) (.mat []) = ((a :: row) :: rest, true) ∧
        Div ((a :: row) :: rest) (.mat []) = ((a :: row) :: rest, true))) := by
  refine ⟨fun m ty => ⟨rfl, rfl, rfl, rfl⟩, ?_, ?_, ?_, ?_, ?_⟩
  · intro m r c v hm hv
    have hA := vecKernelGo_rect (fun a b => a + b) m r c v hm hv
    have hS := vecKernelGo_rect (fun a b => a - b) m r c v hm hv
    have hM := vecKernelGo_rect (fun a b => a * b) m r c v hm hv
    have hD := vecKernelGo_rect (fun a b => a / b) m r c v hm hv
    exact ⟨⟨hA.1, hS.1, hM.1, hD.1⟩, fun i j hi =>
      ⟨hA.2.2 i j hi, hS.2.2 i j hi, hM.2.2 i j hi, hD.2.2 i j hi⟩⟩
  · intro row rest v h
    exact ⟨vecKernelGo_panic_head _ row rest v h, vecKernelGo_panic_head _ row rest v h,
      vecKernelGo_panic_head _ row rest v h, vecKernelGo_panic_head _ row rest v h⟩
  · intro m v r c rv cv hm hv hr hc
    have hA := matKernelGo_rect (fun a b => a + b) m v r c rv cv hm hv hr hc
    have hS := matKernelGo_rect (fun a b => a - b) m v r c rv cv hm hv hr hc
    have hM := matKernelGo_rect (fun a b => a * b) m v r c rv cv hm hv hr hc
    have hD := matKernelGo_rect (fun a b => a / b) m v r c rv cv hm hv hr hc
    exact ⟨⟨hA.1, hS.1, hM.1, hD.1⟩, ⟨hA.2.1, hS.2.1, hM.2.1, hD.2.1⟩,
      fun i j hi hj => ⟨hA.2.2 i j hi hj, hS.2.2 i j hi hj,
        hM.2.2 i j hi hj, hD.2.2 i j hi hj⟩⟩
  · intro row rest vrow vrest h
    refine ⟨?_, ?_, ?_, ?_⟩ <;>
      simp [Add, Sub, Mult, Div, AddMat, SubMat, MultMat, DivMat, matKernelGo,
        matRowGo_panic _ vrow row h]
  · intro a row rest
    refine ⟨?_, ?_, ?_, ?_⟩ <;>
      simp [Add, Sub, Mult, Div, AddMat, SubMat, MultMat, DivMat, matKernelGo,
        matRowGo_panic _ [] (a :: row) (by simp)]

/-- Witness for the amended Claim C3 theorem at concrete inputs: a 2x2 grid
with a length-1 vector completes without error, and a 1x2 grid with a 2x2
grid operand completes without error. -/
theorem broadcast_no_dynamic_shape_check_witness :
    (Add [[1, 2], [3, 4]] (.vec [5])).2 = false ∧
    (Add [[1, 2]] (.mat [[5, 6], [7, 8]])).2 = false :=
  ⟨((broadcast_no_dynamic_shape_check.2.1 [[1, 2], [3, 4]] 2 2 [5]
      (by decide) (by decide)).1).1,
    ((broadcast_no_dynamic_shape_check.2.2.2.1 [[1, 2]] [[5, 6], [7, 8]] 1 2 2 2
      (by decide) (by decide) (by decide) (by decide)).1).1⟩

/-! ### Claim C4 — vector kernels broadcast the vector across every row -/

/-- Claim C4: for a rectangular Grid with `c` columns and a vector of length
exactly `c`, each of AddVec/SubVec/MultVec/DivVec (to which Add/Sub/Mult/Div
dispatch a `[]float64` operand) sets every element `m[i][j]` to `m[i][j]`
combined with `v[j]` — the vector is applied identically to every row — and
no panic occurs. -/
theorem vec_kernels_broadcast_each_row (m : Grid) (r c : Nat) (v : Vec)
    (hm : Rect m r c) (hv : v.length = c) :
    (Add m (.vec v) = AddVec m v ∧ Sub m (.vec v) = SubVec m v ∧
      Mult m (.vec v) = MultVec m v ∧ Div m (.vec v) = DivVec m v) ∧
    ((AddVec m v).2 = false ∧ (SubVec m v).2 = false ∧
      (MultVec m v).2 = false ∧ (DivVec m v).2 = false) ∧
    ∀ i j, i < r → j < c →
      getE (AddVec m v).1 i j = getE m i j + v.getD j 0 ∧
      getE (SubVec m v).1 i j = getE m i j - v.getD j 0 ∧
      getE (MultVec m v).1 i j = getE m i j * v.getD j 0 ∧
      getE (DivVec m v).1 i j = getE m i j / v.getD j 0 := by
  have hv' : v.length ≤ c := le_of_eq hv
  have hA := vecKernelGo_rect (fun a b => a + b) m r c v hm hv'
  have hS := vecKernelGo_rect (fun a b => a - b) m r c v hm hv'
  have hM := vecKernelGo_rect (fun a b => a * b) m r c v hm hv'
  have hD := vecKernelGo_rect (fun a b => a / b) m r c v hm hv'
  refine ⟨⟨rfl, rfl, rfl, rfl⟩, ⟨hA.1, hS.1, hM.1, hD.1⟩, ?_⟩
  intro i j hi hj
  have hj' : j < v.length := by omega
  refine ⟨?_, ?_, ?_, ?_⟩
  · rw [show AddVec m v = vecKernelGo (fun a b => a + b) m v from rfl,
      hA.2.2 i j hi, if_pos hj']
  · rw [show SubVec m v = vecKernelGo (fun a b => a - b) m v from rfl,
      hS.2.2 i j hi, if_pos hj']
  · rw [show MultVec m v = vecKernelGo (fun a b => a * b) m v from rfl,
      hM.2.2 i j hi, if_pos hj']
  · rw [show DivVec m v = vecKernelGo (fun a b => a / b) m v from rfl,
      hD.2.2 i j hi, if_pos hj']

/-- Witness for the Claim C4 theorem at a concrete input. -/
theorem vec_kernels_broadcast_each_row_witness :
    getE (AddVec [[1, 2], [3, 4]] [5, 6]).1 1 0 =
      getE [[1, 2], [3, 4]] 1 0 + [(5 : ℚ), 6].getD 0 0 ∧
    (MultVec [[1, 2], [3, 4]] [5, 6]).2 = false :=
  ⟨((vec_kernels_broadcast_each_row [[1, 2], [3, 4]] 2 2 [5, 6]
      (by decide) (by decide)).2.2 1 0 (by decide) (by decide)).1,
    (vec_kernels_broadcast_each_row [[1, 2], [3, 4]] 2 2 [5, 6]
      (by decide) (by decide)).2.1.2.2.1⟩

/-! ### Lemmas about row and column selection in the reductions -/

theorem getRow_eq_some (m : Grid) (x : Int) (k : Nat) (hk : k < m.length)
    (hx : (if 0 ≤ x then x else (m.length : Int) + x) = k) :
    getRow m x = some m[k] := by
  simp only [getRow]
  simp only [hx]
  simp [hk]

theorem getCol_congr (m : Grid) (x y : Int) (h : colIdx m x = colIdx m y) :
    getCol m x = getCol m y := by
  unfold getCol
  rw [h]

/-! ### Claim C8 — negative-index equivalence for Sum -/

/-- Claim C8: for a rectangular Grid with `r` rows and `c` columns, summing a
valid non-negative row index `i` equals summing the negative index `i - r`,
and likewise for columns: `Sum(m, 1, j) = Sum(m, 1, j - c)`. -/
theorem sum_negative_index_equivalence (m : Grid) (r c : Nat) (hm : Rect m r c) :
    (∀ i : Nat, i < r → Sum m [0, (i : Int)] = Sum m [0, (i : Int) - (r : Int)]) ∧
    (∀ j : Nat, j < c → Sum m [1, (j : Int)] = Sum m [1, (j : Int) - (c : Int)]) := by
  obtain ⟨hlen, hrow⟩ := hm
  constructor
  · intro i hi
    have hi' : i < m.length := by omega
    have e1 : getRow m (i : Int) = some m[i] :=
      getRow_eq_some m (i : Int) i hi' (by rw [if_pos (by positivity)])
    have e2 : getRow m ((i : Int) - (r : Int)) = some m[i] :=
      getRow_eq_some m ((i : Int) - (r : Int)) i hi'
        (by rw [if_neg (by omega)]; omega)
    simp [Sum, e1, e2]
  · intro j hj
    cases m with
    | nil => rfl
    | cons m0 rest =>
      have hc0 : m0.length = c := hrow m0 (by simp)
      have hcol : colIdx (m0 :: rest) (j : Int) = colIdx (m0 :: rest) ((j : Int) - (c : Int)) := by
        unfold colIdx
        rw [if_pos (by positivity), if_neg (by omega)]
        simp only [List.headD_cons]
        omega
      have hgc := getCol_congr (m0 :: rest) (j : Int) ((j : Int) - (c : Int)) hcol
      simp [Sum, hgc]

/-- Witness for the Claim C8 theorem at a concrete input. -/
theorem sum_negative_index_equivalence_witness :
    Sum [[1, 2], [3, 4]] [0, (1 : Int)] = Sum [[1, 2], [3, 4]] [0, (1 : Int) - (2 : Int)] ∧
    Sum [[1, 2], [3, 4]] [1, (0 : Int)] = Sum [[1, 2], [3, 4]] [1, (0 : Int) - (2 : Int)] :=
  ⟨(sum_negative_index_equivalence [[1, 2], [3, 4]] 2 2 (by decide)).1 1 (by decide),
    (sum_negative_index_equivalence [[1, 2], [3, 4]] 2 2 (by decide)).2 0 (by decide)⟩

/-! ### Claim C9 — arity and axis contract of Sum, Prod, Avg -/

/-- Claim C9: Sum, Prod and Avg panic with a message naming the operation and
the offending value when called with a trailing-argument count other than 0
or 2 (`badArity` carries the operation name and the received arity), or with
two trailing arguments whose axis discriminator is neither 0 nor 1
(`badAxis` carries the operation name and the received axis). With arity 0
they return a value, and with arity 2 and axis 0 or 1 the only possible
panic is an index-out-of-range panic, never an arity or axis error. -/
theorem reductions_arity_axis_contract (m : Grid) (args : List Int) (a x : Int) :
    (args.length ≠ 0 → args.length ≠ 2 →
      Sum m args = .error (.badArity "Sum()" args.length) ∧
      Prod m args = .error (.badArity "Prod()" args.length) ∧
      Avg m args = .error (.badArity "Avg()" args.length)) ∧
    (a ≠ 0 → a ≠ 1 →
      Sum m [a, x] = .error (.badAxis "Sum()" a) ∧
      Prod m [a, x] = .error (.badAxis "Prod()" a) ∧
      Avg m [a, x] = .error (.badAxis "Avg()" a)) ∧
    ((∃ q, Sum m [] = .ok q) ∧ (∃ q, Prod m [] = .ok q) ∧ (∃ q, Avg m [] = .ok q)) ∧
    ((a = 0 ∨ a = 1) →
      (∀ e, Sum m [a, x] = .error e → e = .oob) ∧
      (∀ e, Prod m [a, x] = .error e → e = .oob) ∧
      (∀ e, Avg m [a, x] = .error e → e = .oob)) := by
  refine ⟨?_, ?_, ?_, ?_⟩
  · intro h0 h2
    match args with
    | [] => exact absurd rfl h0
    | [b] => exact ⟨rfl, rfl, rfl⟩
    | [b, y] => exact absurd rfl h2
    | b :: y :: z :: t => exact ⟨rfl, rfl, rfl⟩
  · intro h0 h1
    refine ⟨?_, ?_, ?_⟩ <;> simp [Sum, Prod, Avg, h0, h1]
  · exact ⟨⟨_, rfl⟩, ⟨_, rfl⟩, ⟨_, rfl⟩⟩
  · rintro (rfl | rfl)
    · refine ⟨?_, ?_, ?_⟩ <;>
        · intro e he
          cases hg : getRow m x with
          | none =>
            simp [Sum, Prod, Avg, hg] at he
            simp [he]
          | some row => simp [Sum, Prod, Avg, hg] at he
    · refine ⟨?_, ?_, ?_⟩ <;>
        · intro e he
          cases hg : getCol m x with
          | none =>
            simp [Sum, Prod, Avg, hg] at he
            simp [he]
          | some col => simp [Sum, Prod, Avg, hg] at he

/-- Witness for the Claim C9 theorem at concrete inputs. -/
theorem reductions_arity_axis_contract_witness :
    (Sum [[1]] [7, 7, 7] = .error (.badArity "Sum()" 3) ∧
      Prod [[1]] [7, 7, 7] = .error (.badArity "Prod()" 3) ∧
      Avg [[1]] [7, 7, 7] = .error (.badArity "Avg()" 3)) ∧
    (Sum [[1]] [5, 0] = .error (.badAxis "Sum()" 5) ∧
      Prod [[1]] [5, 0] = .error (.badAxis "Prod()" 5) ∧
      Avg [[1]] [5, 0] = .error (.badAxis "Avg()" 5)) :=
  ⟨(reductions_arity_axis_contract [[1]] [7, 7, 7] 0 0).1 (by decide) (by decide),
    (reductions_arity_axis_contract [[1]] [7, 7, 7] 5 0).2.1 (by decide) (by decide)⟩

/-! ### Lemmas about Dot -/

theorem dotCell_ok :
    ∀ (mi : List ℚ) (n : Grid) (j : Nat) (acc : ℚ),
      mi.length ≤ n.length → (∀ t, t < mi.length → j < (n.getD t []).length) →
      dotCell mi n j acc =
        some (acc + ∑ t ∈ Finset.range mi.length, mi.getD t 0 * getE n t j)
  | [], n, j, acc, _, _ => by simp [dotCell]
  | a :: mi, [], j, acc, h, _ => by simp at h
  | a :: mi, nrow :: ntail, j, acc, h, hw => by
    have hj0 : j < nrow.length := by simpa using hw 0 (by simp)
    have hb : getEntryI nrow (j : Int) = some (nrow.getD j 0) := by
      simp [getEntryI, hj0, List.getD_eq_getElem _ _ hj0]
    have ih := dotCell_ok mi ntail j (acc + a * nrow.getD j 0)
      (by simpa using h)
      (fun t ht => by
        simpa using hw (t + 1) (by simp only [List.length_cons]; omega))
    simp only [dotCell, hb, ih]
    congr 1
    simp only [List.length_cons]
    rw [Finset.sum_range_succ']
    simp only [List.getD_cons_succ, List.getD_cons_zero, getE]
    ring

theorem dotRowAux_ok (mi : List ℚ) (n : Grid) (hlen : mi.length ≤ n.length) :
    ∀ js : List Nat, (∀ j ∈ js, ∀ t, t < mi.length → j < (n.getD t []).length) →
      dotRowAux mi n js =
        some (js.map fun j => ∑ t ∈ Finset.range mi.length, mi.getD t 0 * getE n t j)
  | [], _ => by simp [dotRowAux]
  | j :: js, h => by
    have hc := dotCell_ok mi n j 0 hlen (fun t ht => h j (by simp) t ht)
    have ih := dotRowAux_ok mi n hlen js (fun j' hj' t ht => h j' (by simp [hj']) t ht)
    simp [dotRowAux, hc, ih]

theorem dotRows_ok (n : Grid) (c : Nat) :
    ∀ A : Grid,
      (∀ mi ∈ A, mi.length ≤ n.length ∧
        ∀ j, j < c → ∀ t, t < mi.length → j < (n.getD t []).length) →
      dotRows n c A =
        some (A.map fun mi =>
          (List.range c).map fun j =>
            ∑ t ∈ Finset.range mi.length, mi.getD t 0 * getE n t j)
  | [], _ => by simp [dotRows]
  | mi :: rest, h => by
    have h1 := h mi (by simp)
    have hrow := dotRowAux_ok mi n h1.1 (List.range c)
      (fun j hj t ht => h1.2 j (by simpa using hj) t ht)
    have ih := dotRows_ok n c rest (fun r hr => h r (by simp [hr]))
    simp [dotRows, hrow, ih]

/-! ### Claim C7 — the matrix product -/

/-- Claim C7 counterexample: for `A = [[]]` (a non-jagged 1×0 Grid) and
`B = []` (a 0-row Grid, so `k = 0`), `Dot(A, B)` does not return the 1×c
result Grid the claim promises: evaluating `len(n[0])` on the empty `B`
panics before any result is produced. -/
theorem dot_empty_right_operand_panics :
    Dot [[]] ([] : Grid) = none ∧ (Dot [[]] ([] : Grid)).isSome = false :=
  ⟨rfl, rfl⟩

/-- Claim C7 (amended): for all non-jagged Grids `A` of shape `r×k` and `B`
of shape `k×c` with `k ≥ 1`, `Dot(A, B)` returns a new `r×c` Grid `C` with
`C[i][j] = Σ_t A[i][t]·B[t][j]` (for `k = 0` the code panics on `n[0]`,
since `B` is then empty). The operands are only read: the result is a fresh
grid built by `New`. -/
theorem dot_product_correct (A B : Grid) (r k c : Nat)
    (hA : Rect A r k) (hB : Rect B k c) (hk : 0 < k) :
    ∃ C, Dot A B = some C ∧ Rect C r c ∧
      ∀ i j, i < r → j < c →
        getE C i j = ∑ t ∈ Finset.range k, getE A i t * getE B t j := by
  obtain ⟨hAl, hArow⟩ := hA
  obtain ⟨hBl, hBrow⟩ := hB
  cases B with
  | nil => simp at hBl; omega
  | cons B0 Brest =>
    have hc0 : B0.length = c := hBrow B0 (by simp)
    have hcond : ∀ mi ∈ A, mi.length ≤ (B0 :: Brest).length ∧
        ∀ j, j < B0.length → ∀ t, t < mi.length →
          j < ((B0 :: Brest).getD t []).length := by
      intro mi hmi
      have hmik : mi.length = k := hArow mi hmi
      refine ⟨by omega, ?_⟩
      intro j hj t ht
      have ht' : t < (B0 :: Brest).length := by omega
      have : (B0 :: Brest).getD t [] = (B0 :: Brest)[t] :=
        List.getD_eq_getElem _ _ ht'
      rw [this]
      have : (B0 :: Brest)[t].length = c := hBrow _ (List.getElem_mem ht')
      omega
    have hrows := dotRows_ok (B0 :: Brest) B0.length A hcond
    have hdot : Dot A (B0 :: Brest) = some (A.map fun mi =>
        (List.range B0.length).map fun j =>
          ∑ t ∈ Finset.range mi.length, mi.getD t 0 * getE (B0 :: Brest) t j) :=
      hrows
    refine ⟨_, hdot, ⟨by simpa using hAl, ?_⟩, ?_⟩
    · intro row hr
      simp only [List.mem_map] at hr
      obtain ⟨mi, _, rfl⟩ := hr
      simp [hc0]
    · intro i j hi hj
      have hi' : i < A.length := by omega
      have hmap : i < (A.map fun mi => (List.range B0.length).map fun j =>
          ∑ t ∈ Finset.range mi.length, mi.getD t 0 * getE (B0 :: Brest) t j).length := by
        simpa using hi'
      have hik : A[i].length = k := hArow _ (List.getElem_mem hi')
      have hjr : j < (List.range B0.length).length := by
        simpa [hc0] using hj
      have hA_gd : A.getD i [] = A[i] := List.getD_eq_getElem _ _ hi'
      conv_lhs =>
        rw [getE, List.getD_eq_getElem _ _ hmap, List.getElem_map,
          List.getD_eq_getElem _ _ (by simpa using hjr), List.getElem_map,
          List.getElem_range]
      rw [hik]
      refine Finset.sum_congr rfl fun t ht => ?_
      simp only [Finset.mem_range] at ht
      simp only [getE, hA_gd]

/-- Witness for the amended Claim C7 theorem at a concrete input. -/
theorem dot_product_correct_witness :
    ∃ C, Dot [[2]] [[3]] = some C ∧ Rect C 1 1 ∧
      ∀ i j, i < 1 → j < 1 →
        getE C i j = ∑ t ∈ Finset.range 1, getE [[2]] i t * getE [[3]] t j :=
  dot_product_correct [[2]] [[3]] 1 1 1 (by decide) (by decide) (by decide)

/-! ### Lemmas about T -/

theorem Rect_New (r c : Nat) : Rect (New r c) r c := by
  refine ⟨by simp [New], fun row hrow => ?_⟩
  rw [List.eq_of_mem_replicate hrow]
  simp

theorem getD_set_ne (l : List ℚ) (i b : Nat) (x : ℚ) (h : b ≠ i) :
    (l.set i x).getD b 0 = l.getD b 0 := by
  by_cases hb : b < l.length
  · rw [List.getD_eq_getElem _ _ (by simpa using hb), List.getD_eq_getElem _ _ hb,
      List.getElem_set_of_ne (fun he => h he.symm)]
  · rw [List.getD_eq_default _ _ (by simpa using hb), List.getD_eq_default _ _ (by omega)]

theorem getD_set_self (l : List ℚ) (i : Nat) (x : ℚ) (hi : i < l.length) :
    (l.set i x).getD i 0 = x := by
  rw [List.getD_eq_getElem _ _ (by simpa using hi), List.getElem_set_self]

theorem setCol_ok :
    ∀ (col : List ℚ) (n : Grid) (i : Nat),
      col.length ≤ n.length → (∀ nrow ∈ n, i < nrow.length) →
      setCol i n col =
        some (List.zipWith (fun nrow x => nrow.set i x) n col ++ n.drop col.length)
  | [], n, i, _, _ => by simp [setCol]
  | x :: xs, [], i, h, _ => by simp at h
  | x :: xs, nrow :: nrest, i, h, hw => by
    have hi : i < nrow.length := hw nrow (by simp)
    have ih := setCol_ok xs nrest i (by simpa using h) (fun q hq => hw q (by simp [hq]))
    simp [setCol, hi, ih]

theorem setColRes_getD :
    ∀ (col : List ℚ) (n : Grid) (i a : Nat),
      (List.zipWith (fun nrow x => nrow.set i x) n col ++ n.drop col.length).getD a [] =
        if a < col.length then (n.getD a []).set i (col.getD a 0) else n.getD a []
  | [], n, i, a => by simp
  | x :: xs, [], i, a => by
    cases a <;> simp
  | x :: xs, nrow :: nrest, i, 0 => by simp
  | x :: xs, nrow :: nrest, i, a + 1 => by
    have ih := setColRes_getD xs nrest i a
    simpa using ih

theorem tLoop_ok :
    ∀ (rows : Grid) (i0 : Nat) (n : Grid) (c r : Nat),
      Rect n c r → (∀ row ∈ rows, row.length = c) → i0 + rows.length ≤ r →
      ∃ n', tLoop rows i0 n = some n' ∧ Rect n' c r ∧
        ∀ a b, a < c →
          getE n' a b =
            if i0 ≤ b ∧ b < i0 + rows.length then (rows.getD (b - i0) []).getD a 0
            else getE n a b
  | [], i0, n, c, r, hn, _, _ => by
    refine ⟨n, rfl, hn, fun a b ha => ?_⟩
    rw [if_neg (by simp only [List.length_nil]; omega)]
  | row :: rest, i0, n, c, r, hn, hrows, hle => by
    have hc : row.length = c := hrows row (by simp)
    have hlen : row.length ≤ n.length := by rw [hc, hn.1]
    have hi0r : i0 < r := by
      have := List.length_cons row rest
      omega
    have hw : ∀ nrow ∈ n, i0 < nrow.length := fun nrow hnr => by
      rw [hn.2 nrow hnr]; exact hi0r
    have hset := setCol_ok row n i0 hlen hw
    set n1 : Grid :=
      List.zipWith (fun nrow x => nrow.set i0 x) n row ++ n.drop row.length with hn1
    have hn1getD : ∀ a, a < c →
        n1.getD a [] = (n.getD a []).set i0 (row.getD a 0) := by
      intro a ha
      rw [hn1, setColRes_getD row n i0 a, if_pos (by omega)]
    have hn1rect : Rect n1 c r := by
      refine Rect.of_getD n1 c r ?_ ?_
      · rw [hn1]
        simp only [List.length_append, List.length_zipWith, List.length_drop]
        rw [hn.1, hc]
        omega
      · intro a ha
        rw [hn1getD a ha]
        have hna := List.getD_eq_getElem n [] (show a < n.length by rw [hn.1]; omega)
        rw [List.length_set, hna]
        exact hn.2 _ (List.getElem_mem _)
    obtain ⟨n', h1, h2, h3⟩ := tLoop_ok rest (i0 + 1) n1 c r hn1rect
      (fun q hq => hrows q (by simp [hq])) (by simp at hle; omega)
    refine ⟨n', ?_, h2, ?_⟩
    · simp [tLoop, hset, ← hn1, h1]
    · intro a b ha
      have hna := List.getD_eq_getElem n [] (show a < n.length by rw [hn.1]; omega)
      have hlr : i0 < (n.getD a []).length := by
        rw [hna, hn.2 _ (List.getElem_mem _)]
        exact hi0r
      rw [h3 a b ha]
      by_cases hwin : i0 + 1 ≤ b ∧ b < i0 + 1 + rest.length
      · have hw1 := hwin.1
        have hw2 := hwin.2
        rw [if_pos hwin, if_pos ⟨by omega, by simp only [List.length_cons]; omega⟩]
        have hb : b - i0 = (b - (i0 + 1)) + 1 := by omega
        rw [hb, List.getD_cons_succ]
      · rw [if_neg hwin]
        by_cases hb0 : b = i0
        · subst hb0
          rw [if_pos ⟨le_refl _, by simp only [List.length_cons]; omega⟩]
          simp only [getE]
          rw [hn1getD a ha, getD_set_self _ _ _ hlr]
          simp
        · have hcond : ¬(i0 ≤ b ∧ b < i0 + (row :: rest).length) := by
            intro hc2
            simp only [List.length_cons] at hc2
            by_cases hA : i0 + 1 ≤ b
            · exact hwin ⟨hA, by omega⟩
            · omega
          rw [if_neg hcond]
          simp only [getE]
          rw [hn1getD a ha, getD_set_ne _ _ _ _ hb0]

theorem getE_eq_get (g : Grid) (i j : Nat) (hi : i < g.length)
    (hj : j < (g.get ⟨i, hi⟩).length) : getE g i j = (g.get ⟨i, hi⟩).get ⟨j, hj⟩ := by
  unfold getE
  rw [List.getD_eq_getElem g [] hi]
  exact List.getD_eq_getElem _ 0 hj

theorem rect_ext (g h : Grid) (r c : Nat) (hg : Rect g r c) (hh : Rect h r c)
    (he : ∀ i j, i < r → j < c → getE g i j = getE h i j) : g = h := by
  have hgl := hg.1
  have hhl := hh.1
  have hl : g.length = h.length := by rw [hgl, hhl]
  apply List.ext_getElem hl
  intro i h1 h2
  have hgc : (g.get ⟨i, h1⟩).length = c := hg.2 _ (List.get_mem g i h1)
  have hhc : (h.get ⟨i, h2⟩).length = c := hh.2 _ (List.get_mem h i h2)
  apply List.ext_getElem
    (show (g.get ⟨i, h1⟩).length = (h.get ⟨i, h2⟩).length by omega)
  intro j hj1 hj2
  have hj1' : j < (g.get ⟨i, h1⟩).length := hj1
  have hj2' : j < (h.get ⟨i, h2⟩).length := hj2
  have := he i j (by omega) (by omega)
  rw [getE_eq_get g i j h1 hj1', getE_eq_get h i j h2 hj2'] at this
  exact this

theorem T_ok (m : Grid) (r c : Nat) (hm : Rect m r c) (hr : 0 < r) :
    ∃ n', T m = some n' ∧ Rect n' c r ∧
      ∀ a b, a < c → b < r → getE n' a b = getE m b a := by
  cases m with
  | nil =>
    have := hm.1
    simp at this
    omega
  | cons m0 mrest =>
    have hc0 : m0.length = c := hm.2 m0 (by simp)
    have hNew : Rect (New m0.length (m0 :: mrest).length) c r := by
      rw [hc0, hm.1]
      exact Rect_New c r
    obtain ⟨n', h1, h2, h3⟩ := tLoop_ok (m0 :: mrest) 0 (New m0.length (m0 :: mrest).length)
      c r hNew hm.2 (by rw [hm.1]; omega)
    refine ⟨n', h1, h2, fun a b ha hb => ?_⟩
    rw [h3 a b ha, if_pos ⟨by omega, by rw [hm.1]; omega⟩]
    rfl

/-! ### Claim C6 — double transpose -/

/-- Claim C6 counterexample: `T(T(m))` is not defined for the empty Grid
(`T` evaluates `len(m[0])`, which panics on `[]`) nor for a Grid with rows
but zero columns (its transpose is the empty Grid, on which the outer `T`
panics), contradicting "for all Grids m, including the empty Grid and Grids
with zero columns, T(T(m)) is defined and equals m". -/
theorem transpose_twice_empty_panics :
    (T ([] : Grid)).bind T = none ∧ (T [[], []]).bind T = none :=
  ⟨rfl, rfl⟩

/-- Claim C6 (amended): for every non-jagged Grid `m` with at least one row
and at least one column, `T(T(m))` is defined and equals `m` (in particular
with the same row and column counts); on the empty Grid, `T` itself panics,
and on a Grid with zero columns `T` returns the empty Grid, whose transpose
panics. -/
theorem transpose_involution (m : Grid) (r c : Nat)
    (hm : Rect m r c) (hr : 0 < r) (hc : 0 < c) :
    (T m).bind T = some m := by
  obtain ⟨n1, h1, h2, h3⟩ := T_ok m r c hm hr
  obtain ⟨n2, h4, h5, h6⟩ := T_ok n1 c r h2 hc
  rw [h1, Option.some_bind, h4]
  congr 1
  refine rect_ext n2 m r c h5 hm ?_
  intro i j hi hj
  rw [h6 i j hi hj, h3 j i hj hi]

/-- Witness for the amended Claim C6 theorem at a concrete input. -/
theorem transpose_involution_witness :
    (T [[1, 2], [3, 4]]).bind T = some [[1, 2], [3, 4]] :=
  transpose_involution [[1, 2], [3, 4]] 2 2 (by decide) (by decide) (by decide)

end Matf64
